import Mathlib

/-!
Shallow embedding of the `ceres_governance` ink! contract
(src/ceres_governance/lib.rs) and verification of its specification.

Machine integers are modelled as `Nat`: timestamps are `u64`, balances
(vote weights) are `u128`, option counts are `u32`.
The only arithmetic the contract performs is the `u128` accumulation
`voting_info.number_of_votes += number_of_votes` inside `vote`; ink!
contracts are built with overflow checks enabled, so an overflowing
addition panics and the call traps.  That is modelled by the `.trap`
outcome, guarded by the explicit bound `2 ^ 128`.  All comparisons are
order comparisons that cannot overflow, so every other quantity is a
plain `Nat`.

Storage (`ink::storage::Mapping`) is modelled as functions into
`Option`; `unwrap_or_default` becomes `Option.getD` with the all-zero
default records, exactly as in the source.
-/

namespace CeresGovernance

/-- Account identifiers are abstract; only decidable equality is used. -/
abbrev AccountId := Nat

/-- Poll identifiers are `String` in the contract. -/
abbrev PollId := String

/-- One more than the largest `u128` value: the `+=` in `vote` traps when
the mathematical sum reaches this bound. -/
def U128LIMIT : Nat := 2 ^ 128

/-- `VotingInfo` storage record of the contract. -/
structure VotingInfo where
  voting_option : Nat
  number_of_votes : Nat
  ceres_withdrawn : Bool
deriving DecidableEq, Repr

/-- `Default` derive of `VotingInfo`: all fields zero / false. -/
def VotingInfo.default : VotingInfo := ⟨0, 0, false⟩

/-- `PollInfo` storage record of the contract. -/
structure PollInfo where
  number_of_options : Nat
  poll_start_timestamp : Nat
  poll_end_timestamp : Nat
deriving DecidableEq, Repr

/-- `Default` derive of `PollInfo`: all fields zero. -/
def PollInfo.default : PollInfo := ⟨0, 0, 0⟩

/-- The contract's `Error` enum, all thirteen variants. -/
inductive Error where
  | InvalidVotes
  | PollIsFinished
  | PollIsNotStarted
  | NotEnoughFunds
  | InvalidNumberOfOption
  | VoteDenied
  | InvalidStartTimestamp
  | InvalidEndTimestamp
  | PollIsNotFinished
  | InvalidNumberOfVotes
  | FundsAlreadyWithdrawn
  | PollIdAlreadyExists
  | PollDoesNotExist
deriving DecidableEq, Repr

/-- The three event types the contract emits, with the fields it fills in. -/
inductive Event where
  | Voted (poll_id : PollId) (voter : AccountId) (voting_option : Nat)
      (number_of_votes : Nat)
  | PollCreated (poll_id : PollId) (number_of_options : Nat)
      (poll_start_timestamp : Nat) (poll_end_timestamp : Nat)
  | FundsWithdrawn (voter : AccountId) (amount : Nat)
deriving DecidableEq, Repr

/-- The contract storage: `poll_data` and `voting` mappings. -/
structure State where
  poll_data : PollId → Option PollInfo
  voting : PollId × AccountId → Option VotingInfo

/-- The storage produced by the constructor `new`: both mappings empty. -/
def initial : State := ⟨fun _ => none, fun _ => none⟩

/-- `self.poll_data.get(&poll_id).unwrap_or_default()`. -/
def getPoll (s : State) (poll_id : PollId) : PollInfo :=
  (s.poll_data poll_id).getD PollInfo.default

/-- `self.voting.get(&(poll_id, caller)).unwrap_or_default()`. -/
def getVote (s : State) (poll_id : PollId) (who : AccountId) : VotingInfo :=
  (s.voting (poll_id, who)).getD VotingInfo.default

/-- `self.poll_data.insert(&poll_id, &p)`. -/
def insertPoll (s : State) (poll_id : PollId) (p : PollInfo) : State :=
  { s with poll_data := fun k => if k = poll_id then some p else s.poll_data k }

/-- `self.voting.insert(&(poll_id, caller), &v)`. -/
def insertVote (s : State) (poll_id : PollId) (who : AccountId) (v : VotingInfo) : State :=
  { s with voting := fun k => if k = (poll_id, who) then some v else s.voting k }

/-- Outcome of one contract message: normal return `Ok(())` with the new
storage and the emitted event, normal return `Err(e)`, or a panic/trap
(only reachable through the overflow-checked `+=` in `vote`). -/
inductive OpResult where
  | ok (s : State) (ev : Event)
  | err (e : Error)
  | trap

/-- Whether the message returned `Ok`. -/
def OpResult.isOk : OpResult → Bool
  | .ok _ _ => true
  | _ => false

/-- The `Err` value returned, if any. -/
def OpResult.errorOf : OpResult → Option Error
  | .err e => some e
  | _ => none

/-- Whether the message panicked (arithmetic overflow). -/
def OpResult.isTrap : OpResult → Bool
  | .trap => true
  | _ => false

/-- The event emitted on success, if any. -/
def OpResult.eventOf : OpResult → Option Event
  | .ok _ ev => some ev
  | _ => none

/-- The storage after the message: updated on `Ok`, unchanged on `Err`
(the contract performs no writes before its checks) and on a trap (the
transaction reverts). -/
def stateAfter (s : State) : OpResult → State
  | .ok s2 _ => s2
  | _ => s

/-- `create_poll` message, translated line by line from the source.
`current_timestamp` is the block timestamp read from the environment. -/
def create_poll (s : State) (poll_id : PollId) (number_of_options : Nat)
    (poll_start_timestamp poll_end_timestamp : Nat)
    (current_timestamp : Nat) : OpResult :=
  let poll_info := getPoll s poll_id
  if poll_info.number_of_options ≠ 0 then
    .err .PollIdAlreadyExists
  else if number_of_options < 2 then
    .err .InvalidNumberOfOption
  else if poll_start_timestamp < current_timestamp then
    .err .InvalidStartTimestamp
  else if poll_end_timestamp ≤ poll_start_timestamp then
    .err .InvalidEndTimestamp
  else
    let p : PollInfo := ⟨number_of_options, poll_start_timestamp, poll_end_timestamp⟩
    .ok (insertPoll s poll_id p)
      (.PollCreated poll_id number_of_options poll_start_timestamp poll_end_timestamp)

/-- The tail of `vote` from `voting_info.number_of_votes += number_of_votes`
on: the overflow-checked `u128` addition (trap when the sum does not fit),
the `insert`, and the `Voted` event, whose amount is this call's argument. -/
def accumulateAndEmit (s : State) (caller : AccountId) (poll_id : PollId)
    (voting_option : Nat) (number_of_votes : Nat) (vi : VotingInfo) : OpResult :=
  if vi.number_of_votes + number_of_votes < U128LIMIT then
    let vi2 := { vi with number_of_votes := vi.number_of_votes + number_of_votes }
    .ok (insertVote s poll_id caller vi2)
      (.Voted poll_id caller voting_option number_of_votes)
  else
    .trap

/-- `vote` message, translated line by line from the source.  `caller` is
`self.env().caller()`, `current_timestamp` the block timestamp. -/
def vote (s : State) (caller : AccountId) (poll_id : PollId) (voting_option : Nat)
    (number_of_votes : Nat) (current_timestamp : Nat) : OpResult :=
  if number_of_votes ≤ 0 then
    .err .InvalidNumberOfVotes
  else
    let poll_info := getPoll s poll_id
    if current_timestamp < poll_info.poll_start_timestamp then
      .err .PollIsNotStarted
    else if current_timestamp > poll_info.poll_end_timestamp then
      .err .PollIsFinished
    else if voting_option > poll_info.number_of_options then
      .err .InvalidNumberOfOption
    else
      let voting_info := getVote s poll_id caller
      if voting_info.voting_option = 0 then
        accumulateAndEmit s caller poll_id voting_option number_of_votes
          { voting_info with voting_option := voting_option }
      else if voting_info.voting_option ≠ voting_option then
        .err .VoteDenied
      else
        accumulateAndEmit s caller poll_id voting_option number_of_votes voting_info

/-- `withdrawn` message (the contract's withdraw entry point), translated
line by line from the source. -/
def withdrawn (s : State) (caller : AccountId) (poll_id : PollId)
    (current_timestamp : Nat) : OpResult :=
  let poll_info := getPoll s poll_id
  if poll_info.number_of_options = 0 then
    .err .PollDoesNotExist
  else if current_timestamp < poll_info.poll_end_timestamp then
    .err .PollIsNotFinished
  else
    let voting_info := getVote s poll_id caller
    if voting_info.number_of_votes = 0 then
      .err .InvalidVotes
    else if voting_info.ceres_withdrawn = true then
      .err .FundsAlreadyWithdrawn
    else
      let vi2 := { voting_info with ceres_withdrawn := true }
      .ok (insertVote s poll_id caller vi2)
        (.FundsWithdrawn caller voting_info.number_of_votes)

/-- `get_poll_info` message: read-only (`&self` receiver in the source). -/
def get_poll_info (s : State) (poll_id : PollId) : Except Error PollInfo :=
  let poll_info := getPoll s poll_id
  if poll_info.number_of_options = 0 then
    .error .PollDoesNotExist
  else
    .ok poll_info

/-- One external call to the contract, with its block timestamp. -/
inductive Call where
  | create (poll_id : PollId) (number_of_options : Nat)
      (poll_start_timestamp poll_end_timestamp : Nat) (now : Nat)
  | vote (caller : AccountId) (poll_id : PollId) (voting_option : Nat)
      (number_of_votes : Nat) (now : Nat)
  | withdraw (caller : AccountId) (poll_id : PollId) (now : Nat)
  | getInfo (poll_id : PollId)
deriving DecidableEq, Repr

/-- Storage after one call: commits on success, reverts nothing otherwise;
`get_poll_info` takes `&self` and never writes. -/
def step (s : State) : Call → State
  | .create pid n st en now => stateAfter s (create_poll s pid n st en now)
  | .vote who pid o w now => stateAfter s (vote s who pid o w now)
  | .withdraw who pid now => stateAfter s (withdrawn s who pid now)
  | .getInfo _ => s

/-- Storage after a sequence of calls. -/
def runAll (s : State) (cs : List Call) : State :=
  cs.foldl step s

/-! ### Lookup / update lemmas for the two mappings -/

theorem getPoll_insertPoll (s : State) (pid : PollId) (p : PollInfo) (pid2 : PollId) :
    getPoll (insertPoll s pid p) pid2 = if pid2 = pid then p else getPoll s pid2 := by
  unfold getPoll insertPoll
  by_cases h : pid2 = pid <;> simp [h]

theorem getPoll_insertVote (s : State) (pid : PollId) (who : AccountId) (v : VotingInfo)
    (pid2 : PollId) : getPoll (insertVote s pid who v) pid2 = getPoll s pid2 := rfl

theorem getVote_insertVote (s : State) (pid : PollId) (who : AccountId) (v : VotingInfo)
    (pid2 : PollId) (who2 : AccountId) :
    getVote (insertVote s pid who v) pid2 who2 =
      if (pid2, who2) = (pid, who) then v else getVote s pid2 who2 := by
  unfold getVote insertVote
  by_cases h : (pid2, who2) = (pid, who) <;> simp [h]

theorem getVote_insertPoll (s : State) (pid : PollId) (p : PollInfo)
    (pid2 : PollId) (who2 : AccountId) :
    getVote (insertPoll s pid p) pid2 who2 = getVote s pid2 who2 := rfl

theorem poll_data_insertVote (s : State) (pid : PollId) (who : AccountId) (v : VotingInfo) :
    (insertVote s pid who v).poll_data = s.poll_data := rfl

/-! ### Inversion lemmas: what a successful message implies -/

theorem create_poll_ok_inv {s : State} {pid : PollId} {n : Nat} {st en now : Nat}
    {s2 : State} {ev : Event} (h : create_poll s pid n st en now = .ok s2 ev) :
    (getPoll s pid).number_of_options = 0 ∧ 2 ≤ n ∧ now ≤ st ∧ st < en ∧
      s2 = insertPoll s pid ⟨n, st, en⟩ ∧ ev = .PollCreated pid n st en := by
  unfold create_poll at h
  by_cases h1 : (getPoll s pid).number_of_options ≠ 0
  · simp [h1] at h
  · by_cases h2 : n < 2
    · simp [h1, h2] at h
    · by_cases h3 : st < now
      · simp [h1, h2, h3] at h
      · by_cases h4 : en ≤ st
        · simp [h1, h2, h3, h4] at h
        · simp [h1, h2, h3, h4] at h
          exact ⟨by omega, by omega, by omega, by omega, h.1.symm, h.2.symm⟩

theorem accumulateAndEmit_ok (s : State) (caller : AccountId) (pid : PollId) (o w : Nat)
    (vi : VotingInfo) (h : vi.number_of_votes + w < U128LIMIT) :
    accumulateAndEmit s caller pid o w vi =
      .ok (insertVote s pid caller { vi with number_of_votes := vi.number_of_votes + w })
        (.Voted pid caller o w) := by
  unfold accumulateAndEmit
  rw [if_pos h]

/-- `vote` succeeds when the weight is positive, the poll window is open,
the option is in range, the voter is unlocked or votes for the locked
option, and the accumulated weight fits in `u128`; the stored record ends
with the requested option, the summed weight and the old flag, and the
`Voted` event carries this call's weight only. -/
theorem vote_ok_of {s : State} {caller : AccountId} {pid : PollId} {o w t : Nat}
    (hw : 0 < w) (h1 : (getPoll s pid).poll_start_timestamp ≤ t)
    (h2 : t ≤ (getPoll s pid).poll_end_timestamp)
    (h3 : o ≤ (getPoll s pid).number_of_options)
    (h4 : (getVote s pid caller).voting_option = 0 ∨ (getVote s pid caller).voting_option = o)
    (h5 : (getVote s pid caller).number_of_votes + w < U128LIMIT) :
    vote s caller pid o w t =
      .ok (insertVote s pid caller
            ⟨o, (getVote s pid caller).number_of_votes + w,
              (getVote s pid caller).ceres_withdrawn⟩)
        (.Voted pid caller o w) := by
  unfold vote
  rw [if_neg (by omega)]
  try simp only []
  rw [if_neg (by omega), if_neg (by omega), if_neg (by omega)]
  rcases h4 with h4 | h4
  · rw [if_pos h4]
    rw [accumulateAndEmit_ok s caller pid o w { getVote s pid caller with voting_option := o } (by simpa using h5)]
  · by_cases h0 : (getVote s pid caller).voting_option = 0
    · rw [if_pos h0]
      rw [accumulateAndEmit_ok s caller pid o w { getVote s pid caller with voting_option := o } (by simpa using h5)]
    · rw [if_neg h0, if_neg (by omega)]
      rw [accumulateAndEmit_ok s caller pid o w (getVote s pid caller) h5]
      rw [show ({ getVote s pid caller with
            number_of_votes := (getVote s pid caller).number_of_votes + w } : VotingInfo)
          = ⟨o, (getVote s pid caller).number_of_votes + w,
              (getVote s pid caller).ceres_withdrawn⟩ from by
        rcases hv : getVote s pid caller with ⟨vo, nv, cw⟩
        rw [hv] at h4
        simp at h4
        simp [h4]]

/-- What a successful `vote` implies: all checks passed, the voter was
unlocked or repeated the locked option, the sum fits in `u128`, and the
result is exactly the accumulated record plus the per-call `Voted` event. -/
theorem vote_ok_inv {s : State} {caller : AccountId} {pid : PollId} {o w t : Nat}
    {s2 : State} {ev : Event} (h : vote s caller pid o w t = .ok s2 ev) :
    0 < w ∧ (getPoll s pid).poll_start_timestamp ≤ t ∧
      t ≤ (getPoll s pid).poll_end_timestamp ∧
      o ≤ (getPoll s pid).number_of_options ∧
      ((getVote s pid caller).voting_option = 0 ∨ (getVote s pid caller).voting_option = o) ∧
      (getVote s pid caller).number_of_votes + w < U128LIMIT ∧
      s2 = insertVote s pid caller
        ⟨o, (getVote s pid caller).number_of_votes + w,
          (getVote s pid caller).ceres_withdrawn⟩ ∧
      ev = .Voted pid caller o w := by
  have hw : ¬ w ≤ 0 := by
    intro hw
    unfold vote at h
    rw [if_pos hw] at h
    exact absurd h (by simp)
  have h1 : ¬ t < (getPoll s pid).poll_start_timestamp := by
    intro hc
    unfold vote at h
    rw [if_neg hw] at h
    try simp only [] at h
    rw [if_pos hc] at h
    exact absurd h (by simp)
  have h2 : ¬ t > (getPoll s pid).poll_end_timestamp := by
    intro hc
    unfold vote at h
    rw [if_neg hw] at h
    try simp only [] at h
    rw [if_neg h1, if_pos hc] at h
    exact absurd h (by simp)
  have h3 : ¬ o > (getPoll s pid).number_of_options := by
    intro hc
    unfold vote at h
    rw [if_neg hw] at h
    try simp only [] at h
    rw [if_neg h1, if_neg h2, if_pos hc] at h
    exact absurd h (by simp)
  have h4 : (getVote s pid caller).voting_option = 0 ∨
      (getVote s pid caller).voting_option = o := by
    by_cases h0 : (getVote s pid caller).voting_option = 0
    · exact Or.inl h0
    · by_cases heq : (getVote s pid caller).voting_option = o
      · exact Or.inr heq
      · exfalso
        unfold vote at h
        rw [if_neg hw] at h
        try simp only [] at h
        rw [if_neg h1, if_neg h2, if_neg h3] at h
        try simp only [] at h
        rw [if_neg h0, if_pos heq] at h
        exact absurd h (by simp)
  have h5 : (getVote s pid caller).number_of_votes + w < U128LIMIT := by
    by_contra h5
    have ha : ∀ vi : VotingInfo, vi.number_of_votes = (getVote s pid caller).number_of_votes →
        accumulateAndEmit s caller pid o w vi ≠ .ok s2 ev := by
      intro vi hvi
      unfold accumulateAndEmit
      rw [hvi, if_neg h5]
      simp
    unfold vote at h
    rw [if_neg hw] at h
    try simp only [] at h
    rw [if_neg h1, if_neg h2, if_neg h3] at h
    try simp only [] at h
    rcases h4 with h0 | h0
    · rw [if_pos h0] at h
      exact ha ⟨o, (getVote s pid caller).number_of_votes,
        (getVote s pid caller).ceres_withdrawn⟩ rfl h
    · by_cases hz : (getVote s pid caller).voting_option = 0
      · rw [if_pos hz] at h
        exact ha ⟨o, (getVote s pid caller).number_of_votes,
          (getVote s pid caller).ceres_withdrawn⟩ rfl h
      · rw [if_neg hz, if_neg (by simp [h0])] at h
        exact ha _ rfl h
  have hok := @vote_ok_of s caller pid o w t (by omega) (by omega) (by omega) (by omega) h4 h5
  rw [hok] at h
  have := (OpResult.ok.injEq _ _ _ _).mp h
  exact ⟨by omega, by omega, by omega, by omega, h4, h5, this.1.symm, this.2.symm⟩

/-- `withdrawn` succeeds when the poll exists, its end has been reached,
the caller has nonzero recorded weight, and the flag is still clear; the
result sets the flag and emits the accumulated weight. -/
theorem withdrawn_ok_of {s : State} {caller : AccountId} {pid : PollId} {t : Nat}
    (h1 : (getPoll s pid).number_of_options ≠ 0)
    (h2 : (getPoll s pid).poll_end_timestamp ≤ t)
    (h3 : (getVote s pid caller).number_of_votes ≠ 0)
    (h4 : (getVote s pid caller).ceres_withdrawn = false) :
    withdrawn s caller pid t =
      .ok (insertVote s pid caller { getVote s pid caller with ceres_withdrawn := true })
        (.FundsWithdrawn caller (getVote s pid caller).number_of_votes) := by
  unfold withdrawn
  try simp only []
  rw [if_neg h1, if_neg (by omega)]
  try simp only []
  rw [if_neg h3, if_neg (by simp [h4])]

/-- What a successful `withdrawn` implies. -/
theorem withdrawn_ok_inv {s : State} {caller : AccountId} {pid : PollId} {t : Nat}
    {s2 : State} {ev : Event} (h : withdrawn s caller pid t = .ok s2 ev) :
    (getPoll s pid).number_of_options ≠ 0 ∧
      (getPoll s pid).poll_end_timestamp ≤ t ∧
      (getVote s pid caller).number_of_votes ≠ 0 ∧
      (getVote s pid caller).ceres_withdrawn = false ∧
      s2 = insertVote s pid caller { getVote s pid caller with ceres_withdrawn := true } ∧
      ev = .FundsWithdrawn caller (getVote s pid caller).number_of_votes := by
  have h1 : ¬ (getPoll s pid).number_of_options = 0 := by
    intro hc
    unfold withdrawn at h
    try simp only [] at h
    rw [if_pos hc] at h
    exact absurd h (by simp)
  have h2 : ¬ t < (getPoll s pid).poll_end_timestamp := by
    intro hc
    unfold withdrawn at h
    try simp only [] at h
    rw [if_neg h1, if_pos hc] at h
    exact absurd h (by simp)
  have h3 : ¬ (getVote s pid caller).number_of_votes = 0 := by
    intro hc
    unfold withdrawn at h
    try simp only [] at h
    rw [if_neg h1, if_neg h2] at h
    try simp only [] at h
    rw [if_pos hc] at h
    exact absurd h (by simp)
  have h4 : (getVote s pid caller).ceres_withdrawn = false := by
    by_contra hc
    have hc2 : (getVote s pid caller).ceres_withdrawn = true := by
      cases hb : (getVote s pid caller).ceres_withdrawn
      · exact absurd hb hc
      · rfl
    unfold withdrawn at h
    try simp only [] at h
    rw [if_neg h1, if_neg h2] at h
    try simp only [] at h
    rw [if_neg h3, if_pos (by simp [hc2])] at h
    exact absurd h (by simp)
  have hok := @withdrawn_ok_of s caller pid t h1 (by omega) h3 h4
  rw [hok] at h
  have := (OpResult.ok.injEq _ _ _ _).mp h
  exact ⟨h1, by omega, h3, h4, this.1.symm, this.2.symm⟩

/-! ### Write-footprint lemmas: which storage each message can touch -/

theorem stateAfter_create_voting (s : State) (pid : PollId) (n st en now : Nat) :
    (stateAfter s (create_poll s pid n st en now)).voting = s.voting := by
  cases hc : create_poll s pid n st en now with
  | ok s2 ev =>
    obtain ⟨-, -, -, -, hs2, -⟩ := create_poll_ok_inv hc
    subst hs2
    rfl
  | err e => rfl
  | trap => rfl

theorem stateAfter_vote_poll_data (s : State) (caller : AccountId) (pid : PollId)
    (o w t : Nat) :
    (stateAfter s (vote s caller pid o w t)).poll_data = s.poll_data := by
  cases hv : vote s caller pid o w t with
  | ok s2 ev =>
    obtain ⟨-, -, -, -, -, -, hs2, -⟩ := vote_ok_inv hv
    subst hs2
    rfl
  | err e => rfl
  | trap => rfl

theorem stateAfter_withdrawn_poll_data (s : State) (caller : AccountId) (pid : PollId)
    (t : Nat) :
    (stateAfter s (withdrawn s caller pid t)).poll_data = s.poll_data := by
  cases hv : withdrawn s caller pid t with
  | ok s2 ev =>
    obtain ⟨-, -, -, -, hs2, -⟩ := withdrawn_ok_inv hv
    subst hs2
    rfl
  | err e => rfl
  | trap => rfl

theorem getPoll_stateAfter_vote (s : State) (caller : AccountId) (pid : PollId)
    (o w t : Nat) (pid2 : PollId) :
    getPoll (stateAfter s (vote s caller pid o w t)) pid2 = getPoll s pid2 := by
  unfold getPoll
  rw [stateAfter_vote_poll_data]

theorem getPoll_stateAfter_withdrawn (s : State) (caller : AccountId) (pid : PollId)
    (t : Nat) (pid2 : PollId) :
    getPoll (stateAfter s (withdrawn s caller pid t)) pid2 = getPoll s pid2 := by
  unfold getPoll
  rw [stateAfter_withdrawn_poll_data]

/-- `vote` never changes any record's `ceres_withdrawn` flag. -/
theorem vote_preserves_flag (s : State) (caller : AccountId) (pid : PollId)
    (o w t : Nat) (pid2 : PollId) (who2 : AccountId) :
    (getVote (stateAfter s (vote s caller pid o w t)) pid2 who2).ceres_withdrawn
      = (getVote s pid2 who2).ceres_withdrawn := by
  cases hv : vote s caller pid o w t with
  | ok s2 ev =>
    obtain ⟨-, -, -, -, -, -, hs2, -⟩ := vote_ok_inv hv
    subst hs2
    show (getVote (insertVote s pid caller _) pid2 who2).ceres_withdrawn = _
    rw [getVote_insertVote]
    by_cases hk : (pid2, who2) = (pid, caller)
    · rw [if_pos hk]
      have : pid2 = pid ∧ who2 = caller := Prod.mk.injEq .. ▸ hk
      rw [this.1, this.2]
    · rw [if_neg hk]
  | err e => rfl
  | trap => rfl

theorem getVote_insertVote_self (s : State) (pid : PollId) (who : AccountId)
    (v : VotingInfo) : getVote (insertVote s pid who v) pid who = v := by
  rw [getVote_insertVote]
  simp

theorem create_poll_ok_of {s : State} {pid : PollId} {n st en now : Nat}
    (h1 : (getPoll s pid).number_of_options = 0) (h2 : 2 ≤ n) (h3 : now ≤ st)
    (h4 : st < en) :
    create_poll s pid n st en now =
      .ok (insertPoll s pid ⟨n, st, en⟩) (.PollCreated pid n st en) := by
  unfold create_poll
  rw [if_neg (by omega), if_neg (by omega), if_neg (by omega), if_neg (by omega)]

/-! ### Claim theorems -/

/-- C2: `create_poll(poll_id, number_of_options, start, end)` checks its
preconditions in this exact order, returning the first failing error:
`PollIdAlreadyExists` if the stored record for `poll_id` has
`number_of_options ≠ 0`; `InvalidNumberOfOption` if `number_of_options < 2`;
`InvalidStartTimestamp` if `start < current_time`; `InvalidEndTimestamp` if
`end ≤ start`; otherwise it stores the Poll with exactly those field values
and emits a `PollCreated` notification carrying
`(poll_id, number_of_options, start, end)` and returns success. -/
theorem create_poll_spec (s : State) (pid : PollId) (n st en now : Nat) :
    ((getPoll s pid).number_of_options ≠ 0 →
      create_poll s pid n st en now = .err .PollIdAlreadyExists)
    ∧ ((getPoll s pid).number_of_options = 0 → n < 2 →
      create_poll s pid n st en now = .err .InvalidNumberOfOption)
    ∧ ((getPoll s pid).number_of_options = 0 → 2 ≤ n → st < now →
      create_poll s pid n st en now = .err .InvalidStartTimestamp)
    ∧ ((getPoll s pid).number_of_options = 0 → 2 ≤ n → now ≤ st → en ≤ st →
      create_poll s pid n st en now = .err .InvalidEndTimestamp)
    ∧ ((getPoll s pid).number_of_options = 0 → 2 ≤ n → now ≤ st → st < en →
      create_poll s pid n st en now =
        .ok (insertPoll s pid ⟨n, st, en⟩) (.PollCreated pid n st en)) := by
  refine ⟨fun h1 => ?_, fun h1 h2 => ?_, fun h1 h2 h3 => ?_, fun h1 h2 h3 h4 => ?_,
    fun h1 h2 h3 h4 => ?_⟩ <;> unfold create_poll
  · rw [if_pos h1]
  · rw [if_neg (by omega), if_pos h2]
  · rw [if_neg (by omega), if_neg (by omega), if_pos h3]
  · rw [if_neg (by omega), if_neg (by omega), if_neg (by omega), if_pos h4]
  · rw [if_neg (by omega), if_neg (by omega), if_neg (by omega), if_neg (by omega)]

/-- Witness for C2: each branch of `create_poll_spec` at concrete inputs. -/
theorem create_poll_spec_witness :
    create_poll (insertPoll initial "p" ⟨2, 0, 10⟩) "p" 3 0 10 0 = .err .PollIdAlreadyExists
    ∧ create_poll initial "p" 1 0 10 0 = .err .InvalidNumberOfOption
    ∧ create_poll initial "p" 2 3 10 5 = .err .InvalidStartTimestamp
    ∧ create_poll initial "p" 2 5 5 0 = .err .InvalidEndTimestamp
    ∧ create_poll initial "p" 2 5 10 0 =
        .ok (insertPoll initial "p" ⟨2, 5, 10⟩) (.PollCreated "p" 2 5 10) :=
  ⟨(create_poll_spec (insertPoll initial "p" ⟨2, 0, 10⟩) "p" 3 0 10 0).1 (by decide),
    (create_poll_spec initial "p" 1 0 10 0).2.1 (by decide) (by decide),
    (create_poll_spec initial "p" 2 3 10 5).2.2.1 (by decide) (by decide) (by decide),
    (create_poll_spec initial "p" 2 5 5 0).2.2.2.1 (by decide) (by decide) (by decide)
      (by decide),
    (create_poll_spec initial "p" 2 5 10 0).2.2.2.2 (by decide) (by decide) (by decide)
      (by decide)⟩

/-- C3: `withdraw(poll_id)` checks its preconditions in this exact order:
`PollDoesNotExist` if the stored record for `poll_id` has
`number_of_options == 0`; `PollIsNotFinished` if
`current_time < poll_end_timestamp`; `InvalidVotes` if the caller's
VoteRecord has `number_of_votes == 0` (whether or not they ever voted);
`FundsAlreadyWithdrawn` if `withdrawn` is already true; on success it sets
`withdrawn = true`, persists the record, and emits `FundsWithdrawn`
carrying the caller and the record's accumulated `number_of_votes`
(not a delta). -/
theorem withdrawn_spec (s : State) (caller : AccountId) (pid : PollId) (now : Nat) :
    ((getPoll s pid).number_of_options = 0 →
      withdrawn s caller pid now = .err .PollDoesNotExist)
    ∧ ((getPoll s pid).number_of_options ≠ 0 →
      now < (getPoll s pid).poll_end_timestamp →
      withdrawn s caller pid now = .err .PollIsNotFinished)
    ∧ ((getPoll s pid).number_of_options ≠ 0 →
      (getPoll s pid).poll_end_timestamp ≤ now →
      (getVote s pid caller).number_of_votes = 0 →
      withdrawn s caller pid now = .err .InvalidVotes)
    ∧ ((getPoll s pid).number_of_options ≠ 0 →
      (getPoll s pid).poll_end_timestamp ≤ now →
      (getVote s pid caller).number_of_votes ≠ 0 →
      (getVote s pid caller).ceres_withdrawn = true →
      withdrawn s caller pid now = .err .FundsAlreadyWithdrawn)
    ∧ ((getPoll s pid).number_of_options ≠ 0 →
      (getPoll s pid).poll_end_timestamp ≤ now →
      (getVote s pid caller).number_of_votes ≠ 0 →
      (getVote s pid caller).ceres_withdrawn = false →
      withdrawn s caller pid now =
        .ok (insertVote s pid caller { getVote s pid caller with ceres_withdrawn := true })
          (.FundsWithdrawn caller (getVote s pid caller).number_of_votes)) := by
  refine ⟨fun h1 => ?_, fun h1 h2 => ?_, fun h1 h2 h3 => ?_, fun h1 h2 h3 h4 => ?_,
    fun h1 h2 h3 h4 => ?_⟩
  · unfold withdrawn
    rw [if_pos h1]
  · unfold withdrawn
    rw [if_neg h1, if_pos h2]
  · unfold withdrawn
    rw [if_neg h1, if_neg (by omega)]
    try simp only []
    rw [if_pos h3]
  · unfold withdrawn
    rw [if_neg h1, if_neg (by omega)]
    try simp only []
    rw [if_neg h3, if_pos (by simp [h4])]
  · exact withdrawn_ok_of h1 h2 h3 h4

/-- Witness for C3: each branch of `withdrawn_spec` at concrete inputs. -/
theorem withdrawn_spec_witness :
    withdrawn initial 7 "p" 0 = .err .PollDoesNotExist
    ∧ withdrawn (insertPoll initial "p" ⟨2, 0, 10⟩) 7 "p" 5 = .err .PollIsNotFinished
    ∧ withdrawn (insertPoll initial "p" ⟨2, 0, 10⟩) 7 "p" 10 = .err .InvalidVotes
    ∧ withdrawn (insertVote (insertPoll initial "p" ⟨2, 0, 10⟩) "p" 7 ⟨1, 5, true⟩) 7 "p" 10
        = .err .FundsAlreadyWithdrawn
    ∧ withdrawn (insertVote (insertPoll initial "p" ⟨2, 0, 10⟩) "p" 7 ⟨1, 5, false⟩) 7 "p" 10
        = .ok (insertVote (insertVote (insertPoll initial "p" ⟨2, 0, 10⟩) "p" 7 ⟨1, 5, false⟩)
            "p" 7 ⟨1, 5, true⟩)
          (.FundsWithdrawn 7 5) :=
  ⟨(withdrawn_spec initial 7 "p" 0).1 (by decide),
    (withdrawn_spec (insertPoll initial "p" ⟨2, 0, 10⟩) 7 "p" 5).2.1 (by decide) (by decide),
    (withdrawn_spec (insertPoll initial "p" ⟨2, 0, 10⟩) 7 "p" 10).2.2.1 (by decide)
      (by decide) (by decide),
    (withdrawn_spec (insertVote (insertPoll initial "p" ⟨2, 0, 10⟩) "p" 7 ⟨1, 5, true⟩)
        7 "p" 10).2.2.2.1 (by decide) (by decide) (by decide) (by decide),
    (withdrawn_spec (insertVote (insertPoll initial "p" ⟨2, 0, 10⟩) "p" 7 ⟨1, 5, false⟩)
        7 "p" 10).2.2.2.2 (by decide) (by decide) (by decide) (by decide)⟩

/-- C5: for every voter whose VoteRecord for a poll already has a
non-sentinel `voting_option` `o`, an otherwise-valid `vote` call with a
different option `o2 ≠ o` fails with `VoteDenied` and leaves the stored
VoteRecord (and the whole storage) completely unchanged. -/
theorem vote_denied_locks (s : State) (caller : AccountId) (pid : PollId)
    (o o2 w t : Nat)
    (hlock : (getVote s pid caller).voting_option = o) (ho : o ≠ 0) (hne : o2 ≠ o)
    (hw : 0 < w)
    (hs : (getPoll s pid).poll_start_timestamp ≤ t)
    (he : t ≤ (getPoll s pid).poll_end_timestamp)
    (hopt : o2 ≤ (getPoll s pid).number_of_options) :
    vote s caller pid o2 w t = .err .VoteDenied
    ∧ stateAfter s (vote s caller pid o2 w t) = s
    ∧ getVote (stateAfter s (vote s caller pid o2 w t)) pid caller = getVote s pid caller := by
  have h : vote s caller pid o2 w t = .err .VoteDenied := by
    unfold vote
    rw [if_neg (by omega)]
    try simp only []
    rw [if_neg (by omega), if_neg (by omega), if_neg (by omega)]
    try simp only []
    rw [if_neg (by rw [hlock]; exact ho), if_pos (by rw [hlock]; exact fun hc => hne hc.symm)]
  exact ⟨h, by rw [h]; rfl, by rw [h]; rfl⟩

/-- Witness for C5 at concrete inputs. -/
theorem vote_denied_locks_witness :
    vote (insertVote (insertPoll initial "p" ⟨3, 0, 20⟩) "p" 7 ⟨2, 5, false⟩) 7 "p" 3 4 6
      = .err .VoteDenied
    ∧ getVote (stateAfter (insertVote (insertPoll initial "p" ⟨3, 0, 20⟩) "p" 7 ⟨2, 5, false⟩)
        (vote (insertVote (insertPoll initial "p" ⟨3, 0, 20⟩) "p" 7 ⟨2, 5, false⟩) 7 "p" 3 4 6))
        "p" 7 = getVote (insertVote (insertPoll initial "p" ⟨3, 0, 20⟩) "p" 7 ⟨2, 5, false⟩) "p" 7 :=
  ⟨(vote_denied_locks (insertVote (insertPoll initial "p" ⟨3, 0, 20⟩) "p" 7 ⟨2, 5, false⟩)
      7 "p" 2 3 4 6 (by decide) (by decide) (by decide) (by decide) (by decide) (by decide)
      (by decide)).1,
    (vote_denied_locks (insertVote (insertPoll initial "p" ⟨3, 0, 20⟩) "p" 7 ⟨2, 5, false⟩)
      7 "p" 2 3 4 6 (by decide) (by decide) (by decide) (by decide) (by decide) (by decide)
      (by decide)).2.2⟩

/-- C6: a `vote` call with positive weight on a `poll_id` with no stored
Poll falls through the zero-default window checks and, whenever
`current_time > 0`, fails with `PollIsFinished` — no distinct
"poll does not exist" error — and the storage (hence every VoteRecord)
is untouched. -/
theorem vote_missing_poll (s : State) (caller : AccountId) (pid : PollId)
    (o w t : Nat) (hnone : s.poll_data pid = none) (hw : 0 < w) (ht : 0 < t) :
    vote s caller pid o w t = .err .PollIsFinished
    ∧ stateAfter s (vote s caller pid o w t) = s := by
  have hp : getPoll s pid = PollInfo.default := by
    unfold getPoll
    rw [hnone]
    rfl
  have h : vote s caller pid o w t = .err .PollIsFinished := by
    unfold vote
    rw [if_neg (by omega)]
    try simp only []
    rw [hp]
    rw [if_neg (by simp [PollInfo.default]), if_pos (by simpa [PollInfo.default] using ht)]
  exact ⟨h, by rw [h]; rfl⟩

/-- Witness for C6 at concrete inputs. -/
theorem vote_missing_poll_witness :
    vote initial 7 "ghost" 1 5 3 = .err .PollIsFinished
    ∧ stateAfter initial (vote initial 7 "ghost" 1 5 3) = initial :=
  vote_missing_poll initial 7 "ghost" 1 5 3 (by decide) (by decide) (by decide)

/-- A voter's first vote (fresh default record) on an open poll succeeds
and stores exactly the requested option and weight. -/
theorem vote_first_ok {s : State} {caller : AccountId} {pid : PollId} {o w t : Nat}
    (hfresh : getVote s pid caller = VotingInfo.default)
    (hw : 0 < w) (h1 : (getPoll s pid).poll_start_timestamp ≤ t)
    (h2 : t ≤ (getPoll s pid).poll_end_timestamp)
    (h3 : o ≤ (getPoll s pid).number_of_options)
    (h5 : w < U128LIMIT) :
    vote s caller pid o w t =
      .ok (insertVote s pid caller ⟨o, w, false⟩) (.Voted pid caller o w) := by
  have h := @vote_ok_of s caller pid o w t hw h1 h2 h3
    (Or.inl (by rw [hfresh]; rfl)) (by rw [hfresh]; simpa [VotingInfo.default] using h5)
  rw [hfresh] at h
  simpa [VotingInfo.default] using h

/-- C4: a first successful vote with option `o > 0` and weight `w1`
followed by a second successful vote with the same option and weight `w2`
leaves the VoteRecord with `voting_option = o` and
`number_of_votes = w1 + w2` (weights accumulate additively), and each
`Voted` notification carries the weight of that call alone, not the
running total. -/
theorem vote_accumulates (s : State) (caller : AccountId) (pid : PollId)
    (o w1 w2 t1 t2 : Nat)
    (_ho : 0 < o) (hopt : o ≤ (getPoll s pid).number_of_options)
    (hs1 : (getPoll s pid).poll_start_timestamp ≤ t1)
    (he1 : t1 ≤ (getPoll s pid).poll_end_timestamp)
    (hs2 : (getPoll s pid).poll_start_timestamp ≤ t2)
    (he2 : t2 ≤ (getPoll s pid).poll_end_timestamp)
    (hfresh : getVote s pid caller = VotingInfo.default)
    (hw1 : 0 < w1) (hw2 : 0 < w2) (hfit : w1 + w2 < U128LIMIT) :
    vote s caller pid o w1 t1 =
      .ok (insertVote s pid caller ⟨o, w1, false⟩) (.Voted pid caller o w1)
    ∧ vote (insertVote s pid caller ⟨o, w1, false⟩) caller pid o w2 t2 =
      .ok (insertVote (insertVote s pid caller ⟨o, w1, false⟩) pid caller ⟨o, w1 + w2, false⟩)
        (.Voted pid caller o w2)
    ∧ getVote (insertVote (insertVote s pid caller ⟨o, w1, false⟩) pid caller
        ⟨o, w1 + w2, false⟩) pid caller = ⟨o, w1 + w2, false⟩ := by
  have hfirst := vote_first_ok hfresh hw1 hs1 he1 hopt (by omega)
  have hrec : getVote (insertVote s pid caller ⟨o, w1, false⟩) pid caller
      = ⟨o, w1, false⟩ := getVote_insertVote_self ..
  have hpoll : getPoll (insertVote s pid caller ⟨o, w1, false⟩) pid = getPoll s pid :=
    getPoll_insertVote ..
  have hsecond := @vote_ok_of (insertVote s pid caller ⟨o, w1, false⟩) caller pid o w2 t2
    hw2 (by rw [hpoll]; exact hs2) (by rw [hpoll]; exact he2) (by rw [hpoll]; exact hopt)
    (Or.inr (by rw [hrec])) (by rw [hrec]; exact hfit)
  rw [hrec] at hsecond
  exact ⟨hfirst, hsecond, getVote_insertVote_self ..⟩

/-- Witness for C4 at concrete inputs (option 2, weights 5 then 3). -/
theorem vote_accumulates_witness :
    vote (insertPoll initial "p" ⟨3, 0, 20⟩) 7 "p" 2 5 6 =
      .ok (insertVote (insertPoll initial "p" ⟨3, 0, 20⟩) "p" 7 ⟨2, 5, false⟩)
        (.Voted "p" 7 2 5)
    ∧ vote (insertVote (insertPoll initial "p" ⟨3, 0, 20⟩) "p" 7 ⟨2, 5, false⟩) 7 "p" 2 3 8 =
      .ok (insertVote (insertVote (insertPoll initial "p" ⟨3, 0, 20⟩) "p" 7 ⟨2, 5, false⟩)
          "p" 7 ⟨2, 8, false⟩)
        (.Voted "p" 7 2 3)
    ∧ getVote (insertVote (insertVote (insertPoll initial "p" ⟨3, 0, 20⟩) "p" 7 ⟨2, 5, false⟩)
        "p" 7 ⟨2, 8, false⟩) "p" 7 = ⟨2, 8, false⟩ :=
  vote_accumulates (insertPoll initial "p" ⟨3, 0, 20⟩) 7 "p" 2 5 3 6 8 (by decide)
    (by decide) (by decide) (by decide) (by decide) (by decide) (by decide) (by decide)
    (by decide) (by decide)

/-- C10: because `vote` only rejects options strictly greater than
`number_of_options`, a first vote on an open poll with `voting_option = 0`
succeeds and accumulates weight while leaving the stored option at the
sentinel 0; a later vote by the same voter with any option
`v ≤ number_of_options` then also succeeds and sets the option to `v` —
the first-vote lock engages only from the first non-zero option. -/
theorem vote_option_zero_no_lock (s : State) (caller : AccountId) (pid : PollId)
    (v w1 w2 t1 t2 : Nat)
    (hfresh : getVote s pid caller = VotingInfo.default)
    (hs1 : (getPoll s pid).poll_start_timestamp ≤ t1)
    (he1 : t1 ≤ (getPoll s pid).poll_end_timestamp)
    (hs2 : (getPoll s pid).poll_start_timestamp ≤ t2)
    (he2 : t2 ≤ (getPoll s pid).poll_end_timestamp)
    (hv : v ≤ (getPoll s pid).number_of_options)
    (hw1 : 0 < w1) (hw2 : 0 < w2) (hfit : w1 + w2 < U128LIMIT) :
    vote s caller pid 0 w1 t1 =
      .ok (insertVote s pid caller ⟨0, w1, false⟩) (.Voted pid caller 0 w1)
    ∧ vote (insertVote s pid caller ⟨0, w1, false⟩) caller pid v w2 t2 =
      .ok (insertVote (insertVote s pid caller ⟨0, w1, false⟩) pid caller ⟨v, w1 + w2, false⟩)
        (.Voted pid caller v w2)
    ∧ getVote (insertVote (insertVote s pid caller ⟨0, w1, false⟩) pid caller
        ⟨v, w1 + w2, false⟩) pid caller = ⟨v, w1 + w2, false⟩ := by
  have hfirst := vote_first_ok hfresh hw1 hs1 he1 (Nat.zero_le _) (by omega)
  have hrec : getVote (insertVote s pid caller ⟨0, w1, false⟩) pid caller
      = ⟨0, w1, false⟩ := getVote_insertVote_self ..
  have hpoll : getPoll (insertVote s pid caller ⟨0, w1, false⟩) pid = getPoll s pid :=
    getPoll_insertVote ..
  have hsecond := @vote_ok_of (insertVote s pid caller ⟨0, w1, false⟩) caller pid v w2 t2
    hw2 (by rw [hpoll]; exact hs2) (by rw [hpoll]; exact he2) (by rw [hpoll]; exact hv)
    (Or.inl (by rw [hrec])) (by rw [hrec]; exact hfit)
  rw [hrec] at hsecond
  exact ⟨hfirst, hsecond, getVote_insertVote_self ..⟩

/-- Witness for C10 at concrete inputs (first option 0, then option 3). -/
theorem vote_option_zero_no_lock_witness :
    vote (insertPoll initial "p" ⟨3, 0, 20⟩) 7 "p" 0 5 6 =
      .ok (insertVote (insertPoll initial "p" ⟨3, 0, 20⟩) "p" 7 ⟨0, 5, false⟩)
        (.Voted "p" 7 0 5)
    ∧ vote (insertVote (insertPoll initial "p" ⟨3, 0, 20⟩) "p" 7 ⟨0, 5, false⟩) 7 "p" 3 4 8 =
      .ok (insertVote (insertVote (insertPoll initial "p" ⟨3, 0, 20⟩) "p" 7 ⟨0, 5, false⟩)
          "p" 7 ⟨3, 9, false⟩)
        (.Voted "p" 7 3 4) :=
  ⟨(vote_option_zero_no_lock (insertPoll initial "p" ⟨3, 0, 20⟩) 7 "p" 3 5 4 6 8 (by decide)
      (by decide) (by decide) (by decide) (by decide) (by decide) (by decide) (by decide)
      (by decide)).1,
    (vote_option_zero_no_lock (insertPoll initial "p" ⟨3, 0, 20⟩) 7 "p" 3 5 4 6 8 (by decide)
      (by decide) (by decide) (by decide) (by decide) (by decide) (by decide) (by decide)
      (by decide)).2.1⟩

/-- C7: for every fresh `poll_id` and parameters with
`number_of_options ≥ 2`, `start ≥ current_time`, `end > start`,
`create_poll` succeeds, and a subsequent `get_poll_info(poll_id)` returns
(rather than errors) a Poll whose fields equal exactly the values passed
to `create_poll`; `get_poll_info` performs no state mutation. -/
theorem create_then_get (s : State) (pid : PollId) (n st en now : Nat)
    (hfresh : (getPoll s pid).number_of_options = 0) (hn : 2 ≤ n)
    (hst : now ≤ st) (hen : st < en) :
    (create_poll s pid n st en now).isOk = true
    ∧ get_poll_info (stateAfter s (create_poll s pid n st en now)) pid = .ok ⟨n, st, en⟩
    ∧ (∀ s2 : State, ∀ pid2 : PollId, step s2 (.getInfo pid2) = s2) := by
  have h := create_poll_ok_of hfresh hn hst hen
  refine ⟨by rw [h]; rfl, ?_, fun s2 pid2 => rfl⟩
  rw [h]
  show get_poll_info (insertPoll s pid ⟨n, st, en⟩) pid = _
  have hp : getPoll (insertPoll s pid ⟨n, st, en⟩) pid = ⟨n, st, en⟩ := by
    rw [getPoll_insertPoll, if_pos rfl]
  unfold get_poll_info
  rw [hp]
  rw [if_neg (by simp; omega)]

/-- Witness for C7 at concrete inputs. -/
theorem create_then_get_witness :
    (create_poll initial "p" 2 5 10 0).isOk = true
    ∧ get_poll_info (stateAfter initial (create_poll initial "p" 2 5 10 0)) "p" =
        .ok ⟨2, 5, 10⟩
    ∧ (∀ s2 : State, ∀ pid2 : PollId, step s2 (.getInfo pid2) = s2) :=
  create_then_get initial "p" 2 5 10 0 (by decide) (by decide) (by decide) (by decide)

/-- One call can never change or remove a stored poll whose option count
is nonzero: `create_poll` refuses to overwrite it and no other message
writes `poll_data`. -/
theorem step_poll_preserved {p : PollInfo} (hno : p.number_of_options ≠ 0)
    (s : State) (c : Call) {pid : PollId} (h : s.poll_data pid = some p) :
    (step s c).poll_data pid = some p := by
  cases c with
  | create pid2 n st en now =>
    show (stateAfter s (create_poll s pid2 n st en now)).poll_data pid = some p
    cases hc : create_poll s pid2 n st en now with
    | ok s2 ev =>
      obtain ⟨hz, -, -, -, hs2, -⟩ := create_poll_ok_inv hc
      subst hs2
      show (insertPoll s pid2 _).poll_data pid = some p
      unfold insertPoll
      by_cases hk : pid = pid2
      · exfalso
        apply hno
        subst hk
        unfold getPoll at hz
        rw [h] at hz
        exact hz
      · simpa [hk] using h
    | err e => exact h
    | trap => exact h
  | vote who pid2 o w now =>
    show (stateAfter s (vote s who pid2 o w now)).poll_data pid = some p
    rw [stateAfter_vote_poll_data]
    exact h
  | withdraw who pid2 now =>
    show (stateAfter s (withdrawn s who pid2 now)).poll_data pid = some p
    rw [stateAfter_withdrawn_poll_data]
    exact h
  | getInfo pid2 => exact h

/-- Any sequence of calls preserves a stored poll with nonzero option
count. -/
theorem runAll_poll_preserved {p : PollInfo} (hno : p.number_of_options ≠ 0)
    (s : State) (cs : List Call) {pid : PollId} (h : s.poll_data pid = some p) :
    (runAll s cs).poll_data pid = some p := by
  induction cs generalizing s with
  | nil => exact h
  | cons c cs ih => exact ih (step s c) (step_poll_preserved hno s c h)

/-- C8: for every `poll_id` for which a Poll was successfully created, any
later `create_poll` call with that id (after any sequence of calls, with
any parameters) fails with `PollIdAlreadyExists`, and the Poll stored
under the id after any sequence of calls is exactly the one written by the
first successful call — a poll is created at most once and is immutable
thereafter. -/
theorem poll_created_once (s : State) (pid : PollId) (n st en now : Nat)
    {s1 : State} {ev : Event} (h : create_poll s pid n st en now = .ok s1 ev) :
    (∀ cs : List Call, (runAll s1 cs).poll_data pid = some ⟨n, st, en⟩)
    ∧ (∀ cs : List Call, ∀ n2 st2 en2 now2 : Nat,
        create_poll (runAll s1 cs) pid n2 st2 en2 now2 = .err .PollIdAlreadyExists) := by
  obtain ⟨hz, hn, -, -, hs1, -⟩ := create_poll_ok_inv h
  subst hs1
  have hbase : (insertPoll s pid ⟨n, st, en⟩).poll_data pid = some ⟨n, st, en⟩ := by
    unfold insertPoll
    simp
  have hno : (⟨n, st, en⟩ : PollInfo).number_of_options ≠ 0 := by
    show n ≠ 0
    omega
  refine ⟨fun cs => runAll_poll_preserved hno _ cs hbase, fun cs n2 st2 en2 now2 => ?_⟩
  have hp := runAll_poll_preserved hno _ cs hbase
  have hex : (getPoll (runAll (insertPoll s pid ⟨n, st, en⟩) cs) pid).number_of_options ≠ 0 := by
    unfold getPoll
    rw [hp]
    exact hno
  unfold create_poll
  rw [if_pos hex]

/-- Witness for C8: a concrete creation followed by concrete calls. -/
theorem poll_created_once_witness :
    (runAll (insertPoll initial "p" ⟨2, 5, 10⟩)
        [.vote 7 "p" 1 3 6, .withdraw 7 "p" 12]).poll_data "p" = some ⟨2, 5, 10⟩
    ∧ create_poll (runAll (insertPoll initial "p" ⟨2, 5, 10⟩)
        [.vote 7 "p" 1 3 6, .withdraw 7 "p" 12]) "p" 5 20 30 40 =
        .err .PollIdAlreadyExists :=
  ⟨(poll_created_once initial "p" 2 5 10 0 (create_poll_ok_of (by decide) (by decide)
      (by decide) (by decide))).1 [.vote 7 "p" 1 3 6, .withdraw 7 "p" 12],
    (poll_created_once initial "p" 2 5 10 0 (create_poll_ok_of (by decide) (by decide)
      (by decide) (by decide))).2 [.vote 7 "p" 1 3 6, .withdraw 7 "p" 12] 5 20 30 40⟩

/-- C1 (amended): for every VoteRecord, `ceres_withdrawn` changes only
from false to true, at most once — a second withdraw by the same voter on
the same poll fails with `FundsAlreadyWithdrawn` — and it is set only in a
withdraw call whose current time is at or after the poll's end timestamp
(strictly before the end, withdraw fails with `PollIsNotFinished`). -/
theorem withdrawn_flag_lifecycle (s : State) (c : Call) (pid : PollId) (who : AccountId) :
    ((getVote (step s c) pid who).ceres_withdrawn ≠ (getVote s pid who).ceres_withdrawn →
      (getVote s pid who).ceres_withdrawn = false
      ∧ (getVote (step s c) pid who).ceres_withdrawn = true
      ∧ ∃ t : Nat, c = .withdraw who pid t ∧ (getPoll s pid).poll_end_timestamp ≤ t)
    ∧ (∀ t t2 : Nat, ∀ s1 : State, ∀ ev : Event,
        withdrawn s who pid t = .ok s1 ev → t ≤ t2 →
        withdrawn s1 who pid t2 = .err .FundsAlreadyWithdrawn)
    ∧ (∀ t : Nat, (getPoll s pid).number_of_options ≠ 0 →
        t < (getPoll s pid).poll_end_timestamp →
        withdrawn s who pid t = .err .PollIsNotFinished) := by
  refine ⟨?_, ?_, ?_⟩
  · cases c with
    | create pid2 n st en now =>
      intro hne
      exfalso
      apply hne
      show (getVote (stateAfter s (create_poll s pid2 n st en now)) pid who).ceres_withdrawn = _
      unfold getVote
      rw [stateAfter_create_voting]
    | vote who2 pid2 o w t =>
      intro hne
      exact absurd (vote_preserves_flag s who2 pid2 o w t pid who) hne
    | getInfo pid2 =>
      intro hne
      exact absurd rfl hne
    | withdraw who2 pid2 t =>
      intro hne
      rw [show step s (.withdraw who2 pid2 t) = stateAfter s (withdrawn s who2 pid2 t)
        from rfl] at hne ⊢
      cases hw : withdrawn s who2 pid2 t with
      | ok s2 ev =>
        rw [hw] at hne
        obtain ⟨hno, hend, hv, hflag, hs2, -⟩ := withdrawn_ok_inv hw
        simp only [stateAfter] at hne ⊢
        subst hs2
        by_cases hk : (pid, who) = (pid2, who2)
        · have hk1 : pid = pid2 := congrArg Prod.fst hk
          have hk2 : who = who2 := congrArg Prod.snd hk
          subst hk1
          subst hk2
          rw [getVote_insertVote_self]
          exact ⟨hflag, rfl, t, rfl, hend⟩
        · exfalso
          apply hne
          rw [getVote_insertVote, if_neg hk]
      | err e =>
        rw [hw] at hne
        exact absurd rfl hne
      | trap =>
        rw [hw] at hne
        exact absurd rfl hne
  · intro t t2 s1 ev h hle
    obtain ⟨hno, hend, hvotes, hflag, hs1, -⟩ := withdrawn_ok_inv h
    subst hs1
    unfold withdrawn
    rw [if_neg (by rw [getPoll_insertVote]; exact hno),
      if_neg (by rw [getPoll_insertVote]; omega)]
    try simp only []
    rw [if_neg (by rw [getVote_insertVote_self]; exact hvotes),
      if_pos (by rw [getVote_insertVote_self])]
  · intro t hno hlt
    unfold withdrawn
    rw [if_neg hno, if_pos hlt]

/-- Witness for C1: the flag-flip conjunct, the repeated withdraw and the
too-early withdraw, all at concrete inputs. -/
theorem withdrawn_flag_lifecycle_witness :
    ((getVote (insertVote (insertPoll initial "p" ⟨2, 5, 100⟩) "p" 7 ⟨1, 5, false⟩)
        "p" 7).ceres_withdrawn = false
      ∧ (getVote (step (insertVote (insertPoll initial "p" ⟨2, 5, 100⟩) "p" 7 ⟨1, 5, false⟩)
        (.withdraw 7 "p" 120)) "p" 7).ceres_withdrawn = true
      ∧ ∃ t : Nat, (Call.withdraw 7 "p" 120 : Call) = .withdraw 7 "p" t
        ∧ (getPoll (insertVote (insertPoll initial "p" ⟨2, 5, 100⟩) "p" 7 ⟨1, 5, false⟩)
            "p").poll_end_timestamp ≤ t)
    ∧ withdrawn (insertVote (insertVote (insertPoll initial "p" ⟨2, 5, 100⟩) "p" 7
        ⟨1, 5, false⟩) "p" 7 ⟨1, 5, true⟩) 7 "p" 130 = .err .FundsAlreadyWithdrawn
    ∧ withdrawn (insertVote (insertPoll initial "p" ⟨2, 5, 100⟩) "p" 7 ⟨1, 5, false⟩)
        7 "p" 99 = .err .PollIsNotFinished :=
  ⟨(withdrawn_flag_lifecycle
      (insertVote (insertPoll initial "p" ⟨2, 5, 100⟩) "p" 7 ⟨1, 5, false⟩)
      (.withdraw 7 "p" 120) "p" 7).1 (by decide),
    (withdrawn_flag_lifecycle (insertVote (insertPoll initial "p" ⟨2, 5, 100⟩) "p" 7
      ⟨1, 5, false⟩) (.getInfo "p") "p" 7).2.1 120 130
      (insertVote (insertVote (insertPoll initial "p" ⟨2, 5, 100⟩) "p" 7 ⟨1, 5, false⟩)
        "p" 7 ⟨1, 5, true⟩)
      (.FundsWithdrawn 7 5) (by rfl) (by decide),
    (withdrawn_flag_lifecycle (insertVote (insertPoll initial "p" ⟨2, 5, 100⟩) "p" 7
      ⟨1, 5, false⟩) (.getInfo "p") "p" 7).2.2 99 (by decide) (by decide)⟩

/-- Counterexample to C1 exactly as stated: on a reachable state whose
poll ends at 100, a withdraw call at current time 100 — which is not
strictly after the end timestamp — succeeds and sets the flag. -/
theorem withdrawn_at_end_not_after :
    (withdrawn (runAll initial [.create "p" 2 5 100 0, .vote 7 "p" 1 5 10]) 7 "p" 100).isOk
        = true
    ∧ (getVote (step (runAll initial [.create "p" 2 5 100 0, .vote 7 "p" 1 5 10])
        (.withdraw 7 "p" 100)) "p" 7).ceres_withdrawn = true
    ∧ (getPoll (runAll initial [.create "p" 2 5 100 0, .vote 7 "p" 1 5 10])
        "p").poll_end_timestamp = 100
    ∧ ¬ (100 : Nat) > 100 := by
  refine ⟨by decide, by decide, by decide, by decide⟩

/-- `create_poll` never panics. -/
theorem create_poll_no_trap (s : State) (pid : PollId) (n st en now : Nat) :
    create_poll s pid n st en now ≠ .trap := by
  unfold create_poll
  try simp only []
  by_cases h1 : (getPoll s pid).number_of_options ≠ 0
  · rw [if_pos h1]
    simp
  rw [if_neg h1]
  by_cases h2 : n < 2
  · rw [if_pos h2]
    simp
  rw [if_neg h2]
  by_cases h3 : st < now
  · rw [if_pos h3]
    simp
  rw [if_neg h3]
  by_cases h4 : en ≤ st
  · rw [if_pos h4]
    simp
  rw [if_neg h4]
  simp

/-- `withdrawn` never panics. -/
theorem withdrawn_no_trap (s : State) (caller : AccountId) (pid : PollId) (now : Nat) :
    withdrawn s caller pid now ≠ .trap := by
  unfold withdrawn
  try simp only []
  by_cases h1 : (getPoll s pid).number_of_options = 0
  · rw [if_pos h1]
    simp
  rw [if_neg h1]
  by_cases h2 : now < (getPoll s pid).poll_end_timestamp
  · rw [if_pos h2]
    simp
  rw [if_neg h2]
  try simp only []
  by_cases h3 : (getVote s pid caller).number_of_votes = 0
  · rw [if_pos h3]
    simp
  rw [if_neg h3]
  by_cases h4 : (getVote s pid caller).ceres_withdrawn = true
  · rw [if_pos h4]
    simp
  rw [if_neg h4]
  simp

/-- The only way `vote` panics is that the caller's accumulated weight
plus the requested amount overflows the 128-bit Balance. -/
theorem vote_trap_inv {s : State} {caller : AccountId} {pid : PollId} {o w t : Nat}
    (h : vote s caller pid o w t = .trap) :
    U128LIMIT ≤ (getVote s pid caller).number_of_votes + w := by
  by_contra hle
  have hfit : (getVote s pid caller).number_of_votes + w < U128LIMIT := by omega
  have hacc : ∀ vi : VotingInfo,
      vi.number_of_votes = (getVote s pid caller).number_of_votes →
      accumulateAndEmit s caller pid o w vi ≠ .trap := by
    intro vi hvi
    unfold accumulateAndEmit
    rw [hvi, if_pos hfit]
    simp
  have hw : ¬ w ≤ 0 := by
    intro hw
    unfold vote at h
    rw [if_pos hw] at h
    exact absurd h (by simp)
  unfold vote at h
  rw [if_neg hw] at h
  try simp only [] at h
  by_cases h1 : t < (getPoll s pid).poll_start_timestamp
  · rw [if_pos h1] at h
    exact absurd h (by simp)
  rw [if_neg h1] at h
  by_cases h2 : t > (getPoll s pid).poll_end_timestamp
  · rw [if_pos h2] at h
    exact absurd h (by simp)
  rw [if_neg h2] at h
  by_cases h3 : o > (getPoll s pid).number_of_options
  · rw [if_pos h3] at h
    exact absurd h (by simp)
  rw [if_neg h3] at h
  try simp only [] at h
  by_cases h0 : (getVote s pid caller).voting_option = 0
  · rw [if_pos h0] at h
    exact hacc ⟨o, (getVote s pid caller).number_of_votes,
      (getVote s pid caller).ceres_withdrawn⟩ rfl h
  · rw [if_neg h0] at h
    by_cases hne : (getVote s pid caller).voting_option ≠ o
    · rw [if_pos hne] at h
      exact absurd h (by simp)
    · rw [if_neg hne] at h
      exact hacc (getVote s pid caller) rfl h

/-- C9 (amended): `create_poll`, `withdrawn` and `get_poll_info` always
return success or an enumerated error and never fault, and `vote` does so
exactly when the caller's accumulated weight plus the requested amount
fits in the 128-bit Balance; when that sum reaches `2 ^ 128` the
overflow-checked accumulation `number_of_votes += requested_amount`
panics, so `vote` is the one operation that can fault — on a reachable
state, since weights are arbitrary caller inputs. -/
theorem totality_and_overflow (s : State) :
    (∀ pid : PollId, ∀ n st en now : Nat, (create_poll s pid n st en now).isTrap = false)
    ∧ (∀ who : AccountId, ∀ pid : PollId, ∀ now : Nat,
        (withdrawn s who pid now).isTrap = false)
    ∧ (∀ who : AccountId, ∀ pid : PollId, ∀ o w t : Nat,
        (getVote s pid who).number_of_votes + w < U128LIMIT →
        (vote s who pid o w t).isTrap = false)
    ∧ (∀ who : AccountId, ∀ pid : PollId, ∀ o w t : Nat,
        (vote s who pid o w t).isTrap = true →
        U128LIMIT ≤ (getVote s pid who).number_of_votes + w) := by
  refine ⟨fun pid n st en now => ?_, fun who pid now => ?_, fun who pid o w t h => ?_,
    fun who pid o w t h => ?_⟩
  · cases hc : create_poll s pid n st en now with
    | ok s2 ev => rfl
    | err e => rfl
    | trap => exact absurd hc (create_poll_no_trap s pid n st en now)
  · cases hc : withdrawn s who pid now with
    | ok s2 ev => rfl
    | err e => rfl
    | trap => exact absurd hc (withdrawn_no_trap s who pid now)
  · cases hv : vote s who pid o w t with
    | ok s2 ev => rfl
    | err e => rfl
    | trap =>
      have := vote_trap_inv hv
      omega
  · cases hv : vote s who pid o w t with
    | ok s2 ev =>
      rw [hv] at h
      simp [OpResult.isTrap] at h
    | err e =>
      rw [hv] at h
      simp [OpResult.isTrap] at h
    | trap => exact vote_trap_inv hv

/-- Witness for C9: trap-freedom of each operation at concrete inputs, and
the overflow characterization on the concrete trapping state. -/
theorem totality_and_overflow_witness :
    (create_poll initial "p" 2 5 10 0).isTrap = false
    ∧ (withdrawn initial 7 "p" 0).isTrap = false
    ∧ (vote (insertPoll initial "p" ⟨2, 0, 10⟩) 7 "p" 1 5 3).isTrap = false
    ∧ U128LIMIT ≤
        (getVote (runAll initial [.create "p" 2 0 10 0, .vote 7 "p" 1 (U128LIMIT - 1) 0])
          "p" 7).number_of_votes + 1 :=
  ⟨(totality_and_overflow initial).1 "p" 2 5 10 0,
    (totality_and_overflow initial).2.1 7 "p" 0,
    (totality_and_overflow (insertPoll initial "p" ⟨2, 0, 10⟩)).2.2.1 7 "p" 1 5 3
      (by decide),
    (totality_and_overflow
        (runAll initial [.create "p" 2 0 10 0, .vote 7 "p" 1 (U128LIMIT - 1) 0])).2.2.2
      7 "p" 1 1 0 (by decide)⟩

/-- Counterexample to C9 as stated: on the reachable state where voter 7
has already accumulated `2 ^ 128 - 1` votes on poll "p", a further `vote`
with the positive amount 1 faults (the `u128` accumulation overflows)
instead of returning success or an error. -/
theorem vote_overflow_faults :
    (vote (runAll initial [.create "p" 2 0 10 0, .vote 7 "p" 1 (U128LIMIT - 1) 0])
      7 "p" 1 1 0).isTrap = true := by decide

end CeresGovernance
